import Mathlib

/-!
Shallow embedding of `src/app/models/cassandra_models.py` (messenger data-access
layer over Cassandra).

Modelling choices, documented once here:

* Machine integers (`int` ids) become `Nat`; `datetime` timestamps become a
  logical clock of type `Nat` held in the store, advanced by one on every call
  of `datetime.now()` (each mutating operation calls it exactly once), so
  successive writes carry strictly increasing timestamps ("one second apart").
* A Cassandra table is a list of rows kept in the storage order the node would
  return them in: partitions in token order, rows within a partition in
  clustering order.  Token order of Murmur3 is a fixed but arbitrary total
  order on partition keys with no guarantee whatsoever; we embed it as the
  representative order "ascending partition key".  For `messages` the schema is
  `(conversation_id PARTITION, timestamp CLUSTERING DESC)`, so storage order is
  conversation_id ascending, timestamp descending inside a conversation;
  `INSERT` is an upsert on the primary key.  `conversations` and
  `last_message_cache` have the single partition key `conversation_id`.
* `SELECT ... LIMIT 1` with no WHERE clause returns the head of the table in
  storage order; a `WHERE` clause is a filter (storage order preserved).
  A Cassandra `UPDATE ... WHERE key = k` is an upsert.
* Python's `list[offset:offset+limit]` for `offset ≥ 0` is
  `(l.drop offset).take limit`; Python's stable `sort(key=ts, reverse=True)`
  is an explicit stable insertion sort, descending on the key.
* The Python module returns dicts; each distinct dict shape becomes a
  structure with the same field names.
-/

namespace Messenger

/-- A row of the `messages` table (also the dict returned by `create_message`:
its keys are exactly these fields). -/
structure MessageRow where
  message_id : Nat
  conversation_id : Nat
  sender_id : Nat
  receiver_id : Nat
  content : String
  timestamp : Nat
  deriving DecidableEq, Repr

/-- A row of the `conversations` table; the INSERT in
`create_or_get_conversation` writes columns
`(conversation_id, user1_id, user2_id, last_timestamp)`. -/
structure ConversationRow where
  conversation_id : Nat
  user1_id : Nat
  user2_id : Nat
  last_timestamp : Nat
  deriving DecidableEq, Repr

/-- A row of the `last_message_cache` table.  `last_timestamp` and
`last_message` are nullable columns (`Option`); every code path that writes the
row stores a concrete `last_timestamp`. -/
structure CacheRow where
  conversation_id : Nat
  sender_id : Nat
  receiver_id : Nat
  last_timestamp : Option Nat
  last_message : Option String
  deriving DecidableEq, Repr

/-- The whole Cassandra keyspace plus the wall clock. -/
structure Store where
  messages : List MessageRow
  conversations : List ConversationRow
  cache : List CacheRow
  clock : Nat
  deriving DecidableEq, Repr

def emptyStore : Store := ⟨[], [], [], 0⟩

/-- Cassandra storage order of the `messages` table: partitions in (embedded)
token order = ascending `conversation_id`, clustering order `timestamp DESC`
inside a partition. -/
def msgBefore (a b : MessageRow) : Prop :=
  a.conversation_id < b.conversation_id ∨
    (a.conversation_id = b.conversation_id ∧ b.timestamp < a.timestamp)

instance (a b : MessageRow) : Decidable (msgBefore a b) := by
  unfold msgBefore; infer_instance

/-- `INSERT INTO messages`: upsert on the primary key
`(conversation_id, timestamp)`, placing the row at its position in storage
order. -/
def insertMessageRow (m : MessageRow) : List MessageRow → List MessageRow
  | [] => [m]
  | x :: xs =>
    if x.conversation_id < m.conversation_id then
      x :: insertMessageRow m xs
    else if x.conversation_id = m.conversation_id ∧ m.timestamp < x.timestamp then
      x :: insertMessageRow m xs
    else if x.conversation_id = m.conversation_id ∧ m.timestamp = x.timestamp then
      m :: xs
    else
      m :: x :: xs

/-- `INSERT INTO conversations`: upsert on the partition key
`conversation_id`, kept in (embedded) token order = ascending id. -/
def insertConversationRow (c : ConversationRow) :
    List ConversationRow → List ConversationRow
  | [] => [c]
  | x :: xs =>
    if x.conversation_id < c.conversation_id then
      x :: insertConversationRow c xs
    else if x.conversation_id = c.conversation_id then
      c :: xs
    else
      c :: x :: xs

/-- `INSERT INTO last_message_cache` / `UPDATE last_message_cache ... WHERE
conversation_id = k`: both are upserts on the partition key
`conversation_id`, kept in (embedded) token order = ascending id. -/
def upsertCacheRow (c : CacheRow) : List CacheRow → List CacheRow
  | [] => [c]
  | x :: xs =>
    if x.conversation_id < c.conversation_id then
      x :: upsertCacheRow c xs
    else if x.conversation_id = c.conversation_id then
      c :: xs
    else
      c :: x :: xs

/-- The dict built by `get_conversation_messages` /
`get_messages_before_timestamp` for each row. -/
structure MessageOut where
  id : Nat
  sender_id : Nat
  receiver_id : Nat
  content : String
  created_at : Nat
  conversation_id : Nat
  deriving DecidableEq, Repr

/-- The dict returned by `get_conversation` and `create_or_get_conversation`
(ConversationResponse shape). -/
structure ConvResp where
  conversation_id : Nat
  sender_id : Nat
  receiver_id : Nat
  last_message_at : Option Nat
  last_message_content : Option String
  deriving DecidableEq, Repr

/-- The dict built by `get_user_conversations` for each cache row. -/
structure UserConvOut where
  id : Nat
  user1_id : Nat
  user2_id : Nat
  last_message_at : Option Nat
  last_message_content : Option String
  deriving DecidableEq, Repr

/-- `MessageModel.get_new_message_id` (lines 26-44):
`SELECT message_id FROM messages LIMIT 1` reads only the first stored row in
storage order and returns its id plus one, or 1 on an empty table. -/
def get_new_message_id (s : Store) : Nat :=
  match s.messages.head? with
  | some row => row.message_id + 1
  | none => 1

/-- `MessageModel.create_message` (lines 46-89): allocate an id, stamp
`datetime.now()`, insert the message row, upsert the conversation's
`last_message_cache` row, return the message dict. -/
def create_message (s : Store) (conversation_id sender_id receiver_id : Nat)
    (content : String) : MessageRow × Store :=
  let message_id := get_new_message_id s
  let created_at := s.clock
  let row : MessageRow :=
    ⟨message_id, conversation_id, sender_id, receiver_id, content, created_at⟩
  let cacheRow : CacheRow :=
    ⟨conversation_id, sender_id, receiver_id, some created_at, some content⟩
  (row,
    { s with
      messages := insertMessageRow row s.messages
      cache := upsertCacheRow cacheRow s.cache
      clock := s.clock + 1 })

/-- The rows of the query `SELECT ... FROM messages WHERE conversation_id = %s
ORDER BY timestamp DESC` (already in clustering order in storage). -/
def conversationRows (s : Store) (conversation_id : Nat) : List MessageRow :=
  s.messages.filter (fun r => r.conversation_id == conversation_id)

def toMessageOut (conversation_id : Nat) (r : MessageRow) : MessageOut :=
  ⟨r.message_id, r.sender_id, r.receiver_id, r.content, r.timestamp,
    conversation_id⟩

/-- `MessageModel.get_conversation_messages` (lines 91-138).  The count query
result is overwritten by `total = len(messages)` before use; the page is the
Python slice `messages[(page-1)*limit : (page-1)*limit + limit]`. -/
def get_conversation_messages (s : Store) (conversation_id : Nat)
    (page : Nat := 1) (limit : Nat := 20) : List MessageOut × Nat :=
  let messages := (conversationRows s conversation_id).map
    (toMessageOut conversation_id)
  let total := messages.length
  let offset := (page - 1) * limit
  let paginated := (messages.drop offset).take limit
  (paginated, total)

/-- The rows of the query `... WHERE conversation_id = %s AND timestamp < %s
ORDER BY timestamp DESC`. -/
def beforeRows (s : Store) (conversation_id before_timestamp : Nat) :
    List MessageRow :=
  s.messages.filter
    (fun r => r.conversation_id == conversation_id &&
      r.timestamp < before_timestamp)

/-- `MessageModel.get_messages_before_timestamp` (lines 141-194): same as
`get_conversation_messages` restricted to `timestamp < before_timestamp`;
`total` is likewise overwritten by the length of the filtered list. -/
def get_messages_before_timestamp (s : Store)
    (conversation_id before_timestamp : Nat) (page : Nat := 1)
    (limit : Nat := 20) : List MessageOut × Nat :=
  let messages := (beforeRows s conversation_id before_timestamp).map
    (toMessageOut conversation_id)
  let total := messages.length
  let offset := (page - 1) * limit
  let paginated := (messages.drop offset).take limit
  (paginated, total)

/-- `ConversationModel.get_new_conversation_id` (lines 210-224):
`SELECT conversation_id FROM conversations LIMIT 1` reads only the first
stored row and returns its id plus one, or 1 on an empty table. -/
def get_new_conversation_id (s : Store) : Nat :=
  match s.conversations.head? with
  | some row => row.conversation_id + 1
  | none => 1

/-- The sort key of `rows_list.sort(key=lambda x: x["last_timestamp"],
reverse=True)`.  Every code path stores a concrete timestamp in the cache, so
`none` never reaches the sort (Python would raise comparing `None`); the
`getD 0` default is never exercised on code-reachable stores. -/
def cacheKey (r : CacheRow) : Nat := r.last_timestamp.getD 0

/-- One step of the stable descending insertion modelling Python's stable
`sort(..., reverse=True)`: an element is placed before the first element of
strictly smaller key, after earlier elements of equal key. -/
def insertCacheDesc (r : CacheRow) : List CacheRow → List CacheRow
  | [] => [r]
  | x :: xs =>
    if cacheKey x ≤ cacheKey r then r :: x :: xs
    else x :: insertCacheDesc r xs

/-- Python's stable `rows_list.sort(key=..., reverse=True)`. -/
def sortCacheDesc : List CacheRow → List CacheRow
  | [] => []
  | x :: xs => insertCacheDesc x (sortCacheDesc xs)

def toUserConvOut (r : CacheRow) : UserConvOut :=
  ⟨r.conversation_id, r.sender_id, r.receiver_id, r.last_timestamp,
    r.last_message⟩

/-- The merged row list of `ConversationModel.get_user_conversations`:
the receiver-filter query (`query2`) is executed first into `rows1`, then the
sender-filter query (`query1`) into `rows2`, and the lists are concatenated. -/
def userCacheRows (s : Store) (user_id : Nat) : List CacheRow :=
  s.cache.filter (fun r => r.receiver_id == user_id) ++
    s.cache.filter (fun r => r.sender_id == user_id)

/-- `ConversationModel.get_user_conversations` (lines 226-268): merge the two
`ALLOW FILTERING` queries over `last_message_cache`, stable-sort descending by
`last_timestamp`, count, slice, and project each row to the output dict. -/
def get_user_conversations (s : Store) (user_id : Nat) (page : Nat := 1)
    (limit : Nat := 20) : List UserConvOut × Nat :=
  let rows_list := sortCacheDesc (userCacheRows s user_id)
  let total := rows_list.length
  let offset := (page - 1) * limit
  let paginated := (rows_list.drop offset).take limit
  (paginated.map toUserConvOut, total)

/-- `ConversationModel.get_conversation` (lines 270-299): single-partition
lookup in `last_message_cache`; `None` when no row exists. -/
def get_conversation (s : Store) (conversation_id : Nat) : Option ConvResp :=
  match s.cache.filter (fun r => r.conversation_id == conversation_id) with
  | [] => none
  | row :: _ =>
    some ⟨row.conversation_id, row.sender_id, row.receiver_id,
      row.last_timestamp, row.last_message⟩

/-- `ConversationModel.create_or_get_conversation` (lines 301-362): look the
unordered pair up in `last_message_cache` by both orientations of
`(sender_id, receiver_id)`; on a hit return `get_conversation` of the found
id; otherwise allocate an id, insert the `conversations` row and a cache row
whose `last_message` is null but whose `last_timestamp` is `created_at`. -/
def create_or_get_conversation (s : Store) (user1_id user2_id : Nat) :
    Option ConvResp × Store :=
  match s.cache.filter
      (fun r => r.sender_id == user1_id && r.receiver_id == user2_id) with
  | r :: _ => (get_conversation s r.conversation_id, s)
  | [] =>
    match s.cache.filter
        (fun r => r.sender_id == user2_id && r.receiver_id == user1_id) with
    | r :: _ => (get_conversation s r.conversation_id, s)
    | [] =>
      let conversation_id := get_new_conversation_id s
      let created_at := s.clock
      let convRow : ConversationRow :=
        ⟨conversation_id, user1_id, user2_id, created_at⟩
      let cacheRow : CacheRow :=
        ⟨conversation_id, user1_id, user2_id, some created_at, none⟩
      (some ⟨conversation_id, user1_id, user2_id, some created_at, none⟩,
        { s with
          conversations := insertConversationRow convRow s.conversations
          cache := upsertCacheRow cacheRow s.cache
          clock := s.clock + 1 })


/-! ### Helper lemmas -/

theorem head_of_filter_eq_cons {α : Type} (p : α → Bool) (l rest : List α)
    (r : α) (h : l.filter p = r :: rest) : r ∈ l ∧ p r = true := by
  have hr : r ∈ l.filter p := h ▸ List.mem_cons_self r rest
  exact List.mem_filter.mp hr

theorem mem_upsertCacheRow (r : CacheRow) (l : List CacheRow) :
    ∀ y ∈ upsertCacheRow r l, y = r ∨ y ∈ l := by
  induction l with
  | nil => intro y hy; simp [upsertCacheRow] at hy; exact Or.inl hy
  | cons x xs ih =>
    intro y hy
    unfold upsertCacheRow at hy
    by_cases h1 : x.conversation_id < r.conversation_id
    · rw [if_pos h1] at hy
      rcases List.mem_cons.mp hy with h | h
      · exact Or.inr (List.mem_cons.mpr (Or.inl h))
      · rcases ih y h with h' | h'
        · exact Or.inl h'
        · exact Or.inr (List.mem_cons.mpr (Or.inr h'))
    · rw [if_neg h1] at hy
      by_cases h2 : x.conversation_id = r.conversation_id
      · rw [if_pos h2] at hy
        rcases List.mem_cons.mp hy with h | h
        · exact Or.inl h
        · exact Or.inr (List.mem_cons.mpr (Or.inr h))
      · rw [if_neg h2] at hy
        rcases List.mem_cons.mp hy with h | h
        · exact Or.inl h
        · exact Or.inr h

theorem self_mem_upsertCacheRow (r : CacheRow) (l : List CacheRow) :
    r ∈ upsertCacheRow r l := by
  induction l with
  | nil => simp [upsertCacheRow]
  | cons x xs ih =>
    unfold upsertCacheRow
    by_cases h1 : x.conversation_id < r.conversation_id
    · rw [if_pos h1]; exact List.mem_cons.mpr (Or.inr ih)
    · rw [if_neg h1]
      by_cases h2 : x.conversation_id = r.conversation_id
      · rw [if_pos h2]; exact List.mem_cons_self r xs
      · rw [if_neg h2]; exact List.mem_cons_self r (x :: xs)

theorem filter_upsertCacheRow_pos (p : CacheRow → Bool) (r : CacheRow)
    (l : List CacheRow) (hl : ∀ x ∈ l, p x = false) (hr : p r = true) :
    (upsertCacheRow r l).filter p = [r] := by
  induction l with
  | nil => simp [upsertCacheRow, List.filter, hr]
  | cons x xs ih =>
    have hx : p x = false := hl x (List.mem_cons_self x xs)
    have hxs : ∀ y ∈ xs, p y = false := fun y hy => hl y (List.mem_cons_of_mem x hy)
    have hxs' : xs.filter p = [] :=
      List.filter_eq_nil_iff.mpr (fun y hy => by simp [hxs y hy])
    unfold upsertCacheRow
    by_cases h1 : x.conversation_id < r.conversation_id
    · rw [if_pos h1, List.filter_cons_of_neg (by simp [hx]), ih hxs]
    · rw [if_neg h1]
      by_cases h2 : x.conversation_id = r.conversation_id
      · rw [if_pos h2, List.filter_cons_of_pos hr, hxs']
      · rw [if_neg h2, List.filter_cons_of_pos hr,
          List.filter_cons_of_neg (by simp [hx]), hxs']

theorem filter_upsertCacheRow_neg (p : CacheRow → Bool) (r : CacheRow)
    (l : List CacheRow) (hl : ∀ x ∈ l, p x = false) (hr : p r = false) :
    (upsertCacheRow r l).filter p = [] := by
  induction l with
  | nil => simp [upsertCacheRow, List.filter, hr]
  | cons x xs ih =>
    have hx : p x = false := hl x (List.mem_cons_self x xs)
    have hxs : ∀ y ∈ xs, p y = false := fun y hy => hl y (List.mem_cons_of_mem x hy)
    have hxs' : xs.filter p = [] :=
      List.filter_eq_nil_iff.mpr (fun y hy => by simp [hxs y hy])
    unfold upsertCacheRow
    by_cases h1 : x.conversation_id < r.conversation_id
    · rw [if_pos h1, List.filter_cons_of_neg (by simp [hx]), ih hxs]
    · rw [if_neg h1]
      by_cases h2 : x.conversation_id = r.conversation_id
      · rw [if_pos h2, List.filter_cons_of_neg (by simp [hr]), hxs']
      · rw [if_neg h2, List.filter_cons_of_neg (by simp [hr]),
          List.filter_cons_of_neg (by simp [hx]), hxs']

theorem filter_upsertCacheRow_key (r : CacheRow) (l : List CacheRow) :
    ∃ rest, (upsertCacheRow r l).filter
      (fun x => x.conversation_id == r.conversation_id) = r :: rest := by
  induction l with
  | nil => exact ⟨[], by simp [upsertCacheRow, List.filter]⟩
  | cons x xs ih =>
    unfold upsertCacheRow
    by_cases h1 : x.conversation_id < r.conversation_id
    · obtain ⟨rest, hres⟩ := ih
      refine ⟨rest, ?_⟩
      rw [if_pos h1, List.filter_cons_of_neg (by simp; omega), hres]
    · rw [if_neg h1]
      by_cases h2 : x.conversation_id = r.conversation_id
      · exact ⟨xs.filter _, by rw [if_pos h2, List.filter_cons_of_pos (by simp)]⟩
      · exact ⟨(x :: xs).filter _, by
          rw [if_neg h2, List.filter_cons_of_pos (by simp)]⟩

theorem get_conversation_of_mem (s : Store) (c : Nat) (w : CacheRow)
    (hw : w ∈ s.cache) (hc : w.conversation_id = c) :
    ∃ resp, get_conversation s c = (some resp) ∧ resp.conversation_id = c := by
  unfold get_conversation
  cases hfe : s.cache.filter (fun r => r.conversation_id == c) with
  | nil =>
    exfalso
    have : w ∈ s.cache.filter (fun r => r.conversation_id == c) :=
      List.mem_filter.mpr ⟨hw, by simp [hc]⟩
    rw [hfe] at this
    exact absurd this (List.not_mem_nil w)
  | cons row rest =>
    have hrow := head_of_filter_eq_cons _ _ _ _ hfe
    exact ⟨_, rfl, by simpa using hrow.2⟩

theorem get_conversation_of_upsert (s : Store) (r : CacheRow)
    (l : List CacheRow) (hs : s.cache = upsertCacheRow r l) :
    get_conversation s r.conversation_id =
      some ⟨r.conversation_id, r.sender_id, r.receiver_id,
        r.last_timestamp, r.last_message⟩ := by
  obtain ⟨rest, hres⟩ := filter_upsertCacheRow_key r l
  unfold get_conversation
  rw [hs, hres]


theorem get_conversation_after_create_message (s : Store)
    (cid sd rc : Nat) (c : String) :
    get_conversation (create_message s cid sd rc c).2 cid =
      some ⟨cid, sd, rc, some s.clock, some c⟩ :=
  get_conversation_of_upsert _ ⟨cid, sd, rc, some s.clock, some c⟩ s.cache rfl

/-- Well-formedness of the conversation directory: any two cache rows holding
the same unordered participant pair name the same conversation.  It holds in
any store in which conversations were only ever created through
`create_or_get_conversation` for distinct pairs, and it is exactly what the
spec's "at most one conversation per unordered participant pair" invariant
says about the lookup table. -/
def PairWF (s : Store) : Prop :=
  ∀ r ∈ s.cache, ∀ q ∈ s.cache,
    ((r.sender_id = q.sender_id ∧ r.receiver_id = q.receiver_id) ∨
      (r.sender_id = q.receiver_id ∧ r.receiver_id = q.sender_id)) →
    r.conversation_id = q.conversation_id

instance (s : Store) : Decidable (PairWF s) := by
  unfold PairWF; infer_instance

theorem create_or_get_found (s : Store) (hwf : PairWF s) (a b : Nat)
    (q : CacheRow) (hq : q ∈ s.cache)
    (hpair : (q.sender_id = a ∧ q.receiver_id = b) ∨
      (q.sender_id = b ∧ q.receiver_id = a)) :
    ∃ resp, create_or_get_conversation s a b = (some resp, s) ∧
      resp.conversation_id = q.conversation_id := by
  unfold create_or_get_conversation
  cases h1 : s.cache.filter (fun r => r.sender_id == a && r.receiver_id == b) with
  | cons x rest =>
    obtain ⟨hxmem, hxp⟩ := head_of_filter_eq_cons _ _ _ _ h1
    have hxab : x.sender_id = a ∧ x.receiver_id = b := by
      simpa using hxp
    have hcid : x.conversation_id = q.conversation_id :=
      hwf x hxmem q hq (by
        rcases hpair with ⟨h3, h4⟩ | ⟨h3, h4⟩
        · exact Or.inl ⟨hxab.1.trans h3.symm, hxab.2.trans h4.symm⟩
        · exact Or.inr ⟨hxab.1.trans h4.symm, hxab.2.trans h3.symm⟩)
    obtain ⟨resp, hresp, hrc⟩ := get_conversation_of_mem s x.conversation_id x hxmem rfl
    refine ⟨resp, ?_, hrc.trans hcid⟩
    show (get_conversation s x.conversation_id, s) = (some resp, s)
    rw [hresp]
  | nil =>
    cases h2 : s.cache.filter (fun r => r.sender_id == b && r.receiver_id == a) with
    | cons x rest =>
      obtain ⟨hxmem, hxp⟩ := head_of_filter_eq_cons _ _ _ _ h2
      have hxab : x.sender_id = b ∧ x.receiver_id = a := by
        simpa using hxp
      have hcid : x.conversation_id = q.conversation_id :=
        hwf x hxmem q hq (by
          rcases hpair with ⟨h3, h4⟩ | ⟨h3, h4⟩
          · exact Or.inr ⟨hxab.1.trans h4.symm, hxab.2.trans h3.symm⟩
          · exact Or.inl ⟨hxab.1.trans h3.symm, hxab.2.trans h4.symm⟩)
      obtain ⟨resp, hresp, hrc⟩ := get_conversation_of_mem s x.conversation_id x hxmem rfl
      refine ⟨resp, ?_, hrc.trans hcid⟩
      show (get_conversation s x.conversation_id, s) = (some resp, s)
      rw [hresp]
    | nil =>
      exfalso
      rcases hpair with ⟨h3, h4⟩ | ⟨h3, h4⟩
      · have : q ∈ s.cache.filter
            (fun r => r.sender_id == a && r.receiver_id == b) :=
          List.mem_filter.mpr ⟨hq, by simp [h3, h4]⟩
        rw [h1] at this
        exact absurd this (List.not_mem_nil q)
      · have : q ∈ s.cache.filter
            (fun r => r.sender_id == b && r.receiver_id == a) :=
          List.mem_filter.mpr ⟨hq, by simp [h3, h4]⟩
        rw [h2] at this
        exact absurd this (List.not_mem_nil q)

theorem create_or_get_new (s : Store) (u1 u2 : Nat)
    (h1 : s.cache.filter
      (fun r => r.sender_id == u1 && r.receiver_id == u2) = [])
    (h2 : s.cache.filter
      (fun r => r.sender_id == u2 && r.receiver_id == u1) = []) :
    create_or_get_conversation s u1 u2 =
      (some ⟨get_new_conversation_id s, u1, u2, some s.clock, none⟩,
        { s with
          conversations := insertConversationRow
            ⟨get_new_conversation_id s, u1, u2, s.clock⟩ s.conversations
          cache := upsertCacheRow
            ⟨get_new_conversation_id s, u1, u2, some s.clock, none⟩ s.cache
          clock := s.clock + 1 }) := by
  unfold create_or_get_conversation
  rw [h1, h2]

/-- Claim C1: the second call of `create_or_get_conversation` for the same
unordered pair, in either argument order, returns the same conversation id as
the first call and leaves the store unchanged (so no second conversation is
created for the pair). -/
theorem C1_create_or_get_is_idempotent_on_pairs (s : Store) (hwf : PairWF s)
    (u1 u2 v w : Nat)
    (horder : (v = u1 ∧ w = u2) ∨ (v = u2 ∧ w = u1)) :
    (∃ r1 r2,
      (create_or_get_conversation s u1 u2).1 = some r1 ∧
      (create_or_get_conversation
        (create_or_get_conversation s u1 u2).2 v w).1 = some r2 ∧
      r2.conversation_id = r1.conversation_id) ∧
    (create_or_get_conversation
        (create_or_get_conversation s u1 u2).2 v w).2 =
      (create_or_get_conversation s u1 u2).2 := by
  by_cases hex : ∃ q ∈ s.cache,
      (q.sender_id = u1 ∧ q.receiver_id = u2) ∨
      (q.sender_id = u2 ∧ q.receiver_id = u1)
  · obtain ⟨q, hq, hpair⟩ := hex
    obtain ⟨r1, e1, hc1⟩ := create_or_get_found s hwf u1 u2 q hq hpair
    have hpair2 : (q.sender_id = v ∧ q.receiver_id = w) ∨
        (q.sender_id = w ∧ q.receiver_id = v) := by
      rcases horder with ⟨rfl, rfl⟩ | ⟨rfl, rfl⟩
      · exact hpair
      · tauto
    obtain ⟨r2, e2, hc2⟩ := create_or_get_found s hwf v w q hq hpair2
    rw [e1]
    exact ⟨⟨r1, r2, rfl, by rw [e2], hc2.trans hc1.symm⟩, by rw [e2]⟩
  · push_neg at hex
    have h1 : s.cache.filter
        (fun r => r.sender_id == u1 && r.receiver_id == u2) = [] := by
      refine List.filter_eq_nil_iff.mpr (fun q hq => ?_)
      have := hex q hq
      simp only [Bool.and_eq_true, beq_iff_eq]
      tauto
    have h2 : s.cache.filter
        (fun r => r.sender_id == u2 && r.receiver_id == u1) = [] := by
      refine List.filter_eq_nil_iff.mpr (fun q hq => ?_)
      have := hex q hq
      simp only [Bool.and_eq_true, beq_iff_eq]
      tauto
    have e1 := create_or_get_new s u1 u2 h1 h2
    set cid0 := get_new_conversation_id s with hcid0
    set newRow : CacheRow := ⟨cid0, u1, u2, some s.clock, none⟩ with hnewRow
    set s1 : Store :=
      { s with
        conversations := insertConversationRow
          ⟨cid0, u1, u2, s.clock⟩ s.conversations
        cache := upsertCacheRow newRow s.cache
        clock := s.clock + 1 } with hs1
    have hwf1 : PairWF s1 := by
      intro r hr p hp hpq
      have hr' := mem_upsertCacheRow newRow s.cache r hr
      have hp' := mem_upsertCacheRow newRow s.cache p hp
      rcases hr' with rfl | hr'
      · rcases hp' with rfl | hp'
        · rfl
        · exfalso
          have := hex p hp'
          simp only [hnewRow] at hpq
          tauto
      · rcases hp' with rfl | hp'
        · exfalso
          have := hex r hr'
          simp only [hnewRow] at hpq
          tauto
        · exact hwf r hr' p hp' hpq
    have hmem : newRow ∈ s1.cache := self_mem_upsertCacheRow newRow s.cache
    have hpair2 : (newRow.sender_id = v ∧ newRow.receiver_id = w) ∨
        (newRow.sender_id = w ∧ newRow.receiver_id = v) := by
      rcases horder with ⟨rfl, rfl⟩ | ⟨rfl, rfl⟩
      · exact Or.inl ⟨rfl, rfl⟩
      · exact Or.inr ⟨rfl, rfl⟩
    obtain ⟨r2, e2, hc2⟩ := create_or_get_found s1 hwf1 v w newRow hmem hpair2
    rw [e1]
    refine ⟨⟨⟨cid0, u1, u2, some s.clock, none⟩, r2, rfl, ?_, ?_⟩, ?_⟩
    · rw [e2]
    · exact hc2
    · rw [e2]


/-! ### Sortedness of message queries -/

theorem pairwise_filter_desc (s : Store) (hwf : s.messages.Pairwise msgBefore)
    (p : MessageRow → Bool) (cid : Nat)
    (hp : ∀ r, p r = true → r.conversation_id = cid) :
    ((s.messages.filter p).map (toMessageOut cid)).Pairwise
      (fun a b => b.created_at < a.created_at) := by
  have h1 : (s.messages.filter p).Pairwise msgBefore :=
    List.Pairwise.sublist (List.filter_sublist s.messages) hwf
  have h2 : (s.messages.filter p).Pairwise
      (fun a b => b.timestamp < a.timestamp) := by
    refine h1.imp_of_mem ?_
    intro a b ha hb hR
    have hac : a.conversation_id = cid := hp a (List.mem_filter.mp ha).2
    have hbc : b.conversation_id = cid := hp b (List.mem_filter.mp hb).2
    rcases hR with h | ⟨_, h⟩
    · omega
    · exact h
  exact List.pairwise_map.mpr h2

theorem conversationRows_sorted (s : Store)
    (hwf : s.messages.Pairwise msgBefore) (cid : Nat) :
    ((conversationRows s cid).map (toMessageOut cid)).Pairwise
      (fun a b => b.created_at < a.created_at) :=
  pairwise_filter_desc s hwf _ cid (fun r hr => by simpa using hr)

theorem beforeRows_sorted (s : Store)
    (hwf : s.messages.Pairwise msgBefore) (cid T : Nat) :
    ((beforeRows s cid T).map (toMessageOut cid)).Pairwise
      (fun a b => b.created_at < a.created_at) :=
  pairwise_filter_desc s hwf _ cid (fun r hr => by
    simp only [Bool.and_eq_true, beq_iff_eq] at hr
    exact hr.1)

/-! ### Pagination algebra -/

theorem join_take_slices {α : Type} (l : List α) (k : Nat) :
    ∀ n, ((List.range n).map (fun i => (l.drop (i * k)).take k)).flatten
      = l.take (n * k)
  | 0 => by simp
  | n + 1 => by
    rw [List.range_succ, List.map_append, List.flatten_append,
      join_take_slices l k n]
    simp only [List.map_cons, List.map_nil, List.flatten_cons,
      List.flatten_nil, List.append_nil, Nat.succ_mul, List.take_add]

/-! ### The 25-message scenario store of the spec -/

/-- The store after `create_or_get(7, 9)` on an empty keyspace. -/
def conv1Store : Store := (create_or_get_conversation emptyStore 7 9).2

/-- `conv1Store` after appending 25 messages to conversation 1, one clock
tick ("one second") apart. -/
def store25 : Store :=
  (List.range 25).foldl
    (fun s i => (create_message s 1 7 9 ("m" ++ toString i)).2) conv1Store

/-! ### Claim theorems: message log reads -/

/-- Claim C3: `get_conversation_messages` reports as `total_count` the number
of all messages of the conversation, returns the slice at offset
`(page-1)*limit` of the full newest-first list, and that full list is sorted
strictly newest-first; in the spec scenario (25 messages one second apart),
page 2 with limit 20 returns the 5 oldest messages and total 25. -/
theorem C3_get_conversation_messages_pagination (s : Store)
    (hwf : s.messages.Pairwise msgBefore) (cid page limit : Nat)
    (hp : 1 ≤ page) (hl : 1 ≤ limit) :
    ((get_conversation_messages s cid page limit).2
        = (conversationRows s cid).length ∧
      (get_conversation_messages s cid page limit).1
        = (((conversationRows s cid).map (toMessageOut cid)).drop
            ((page - 1) * limit)).take limit ∧
      ((conversationRows s cid).map (toMessageOut cid)).Pairwise
        (fun a b => b.created_at < a.created_at)) ∧
    get_conversation_messages store25 1 2 20 =
      ([⟨5, 7, 9, "m4", 5, 1⟩, ⟨4, 7, 9, "m3", 4, 1⟩, ⟨3, 7, 9, "m2", 3, 1⟩,
        ⟨2, 7, 9, "m1", 2, 1⟩, ⟨1, 7, 9, "m0", 1, 1⟩], 25) := by
  refine ⟨⟨List.length_map _ _, rfl, conversationRows_sorted s hwf cid⟩, ?_⟩
  rfl

theorem before_filter_commute (l : List MessageRow) (cid T : Nat) :
    (l.filter (fun r => r.conversation_id == cid &&
        decide (r.timestamp < T))).map (toMessageOut cid)
      = ((l.filter (fun r => r.conversation_id == cid)).map
          (toMessageOut cid)).filter (fun m => decide (m.created_at < T)) := by
  induction l with
  | nil => rfl
  | cons x xs ih =>
    by_cases h1 : x.conversation_id = cid
    · by_cases h2 : x.timestamp < T
      · simp [List.filter_cons, h1, h2, toMessageOut, ih]
      · simp [List.filter_cons, h1, h2, toMessageOut, ih]
    · simp [List.filter_cons, h1, ih]

/-- Claim C4: the full result set of `get_messages_before_timestamp` is
exactly the sublist of the conversation's full newest-first message list whose
`created_at` is strictly below the bound, `total_count` counts exactly those
messages, the returned page is the offset slice, and the filtered list stays
sorted newest-first. -/
theorem C4_get_messages_before_timestamp_filters (s : Store)
    (hwf : s.messages.Pairwise msgBefore) (cid T page limit : Nat)
    (hp : 1 ≤ page) :
    (beforeRows s cid T).map (toMessageOut cid)
      = ((conversationRows s cid).map (toMessageOut cid)).filter
          (fun m => m.created_at < T) ∧
    (get_messages_before_timestamp s cid T page limit).2
      = (beforeRows s cid T).length ∧
    (get_messages_before_timestamp s cid T page limit).1
      = (((beforeRows s cid T).map (toMessageOut cid)).drop
          ((page - 1) * limit)).take limit ∧
    ((beforeRows s cid T).map (toMessageOut cid)).Pairwise
      (fun a b => b.created_at < a.created_at) := by
  exact ⟨before_filter_commute s.messages cid T, List.length_map _ _, rfl,
    beforeRows_sorted s hwf cid T⟩

/-- Claim C5: immediately after `create_message(cid, s, r, c)`, the
conversation's cache snapshot returned by `get_conversation` carries exactly
that message's sender, receiver, timestamp and content. -/
theorem C5_create_message_refreshes_cache (s : Store) (cid sd rc : Nat)
    (c : String) :
    get_conversation (create_message s cid sd rc c).2 cid =
      some ⟨cid, sd, rc, some (create_message s cid sd rc c).1.timestamp,
        some c⟩ ∧
    (create_message s cid sd rc c).1.content = c ∧
    (create_message s cid sd rc c).1.sender_id = sd ∧
    (create_message s cid sd rc c).1.receiver_id = rc ∧
    (create_message s cid sd rc c).1.conversation_id = cid :=
  ⟨get_conversation_after_create_message s cid sd rc c, rfl, rfl, rfl, rfl⟩

/-- Claim C6: for any limit ≥ 1, concatenating the pages 1, 2, …, n of
`get_conversation_messages` (n large enough that page n+1 is empty)
reproduces the conversation's full newest-first message list exactly — no
duplicates, no gaps — and the next page is empty. -/
theorem C6_pages_reproduce_full_list (s : Store) (cid limit n : Nat)
    (hwf : s.messages.Pairwise msgBefore) (hl : 1 ≤ limit)
    (hn : (conversationRows s cid).length ≤ n * limit) :
    ((List.range n).map
        (fun i => (get_conversation_messages s cid (i + 1) limit).1)).flatten
      = (conversationRows s cid).map (toMessageOut cid) ∧
    (get_conversation_messages s cid (n + 1) limit).1 = [] ∧
    ((conversationRows s cid).map (toMessageOut cid)).Pairwise
      (fun a b => b.created_at < a.created_at) := by
  have hlen : ((conversationRows s cid).map (toMessageOut cid)).length
      = (conversationRows s cid).length := List.length_map _ _
  refine ⟨?_, ?_, conversationRows_sorted s hwf cid⟩
  · show ((List.range n).map
        (fun i => ((((conversationRows s cid).map (toMessageOut cid)).drop
          (i * limit)).take limit))).flatten = _
    rw [join_take_slices]
    exact List.take_of_length_le (by rw [hlen]; exact hn)
  · show ((((conversationRows s cid).map (toMessageOut cid)).drop
        (n * limit)).take limit) = []
    rw [List.drop_eq_nil_of_le (by rw [hlen]; exact hn)]
    exact List.take_nil

/-- Claim C9: read operations return explicit empty results on absent data:
`get_conversation` yields `none` when no cache row exists, and the two message
listings yield `([], 0)` when the conversation has no messages. -/
theorem C9_reads_return_empty_on_absent (s : Store) (cid T page limit : Nat) :
    (s.cache.filter (fun r => r.conversation_id == cid) = [] →
      get_conversation s cid = none) ∧
    (conversationRows s cid = [] →
      get_conversation_messages s cid page limit = ([], 0) ∧
      get_messages_before_timestamp s cid T page limit = ([], 0)) := by
  constructor
  · intro h
    unfold get_conversation
    rw [h]
  · intro h
    have hb : beforeRows s cid T = [] := by
      refine List.filter_eq_nil_iff.mpr (fun r hr => ?_)
      have h1 := List.filter_eq_nil_iff.mp h r hr
      simp only [Bool.and_eq_true, beq_iff_eq, decide_eq_true_eq, not_and]
      intro hc
      exact absurd (by simp [hc] : (r.conversation_id == cid) = true) h1
    constructor
    · simp [get_conversation_messages, h]
    · simp [get_messages_before_timestamp, hb]

/-- Claim C10: requesting a page whose offset is at or past the end of the
(possibly timestamp-filtered) result set returns an empty page while still
reporting the full qualifying count. -/
theorem C10_out_of_range_pages_are_benign (s : Store)
    (cid T page limit : Nat) :
    ((conversationRows s cid).length ≤ (page - 1) * limit →
      get_conversation_messages s cid page limit
        = ([], (conversationRows s cid).length)) ∧
    ((beforeRows s cid T).length ≤ (page - 1) * limit →
      get_messages_before_timestamp s cid T page limit
        = ([], (beforeRows s cid T).length)) := by
  constructor
  · intro h
    have hd : ((conversationRows s cid).map (toMessageOut cid)).drop
        ((page - 1) * limit) = [] :=
      List.drop_eq_nil_of_le (by rw [List.length_map]; exact h)
    simp [get_conversation_messages, hd]
  · intro h
    have hd : ((beforeRows s cid T).map (toMessageOut cid)).drop
        ((page - 1) * limit) = [] :=
      List.drop_eq_nil_of_le (by rw [List.length_map]; exact h)
    simp [get_messages_before_timestamp, hd]


/-! ### Stable descending sort of cache rows -/

theorem insertCacheDesc_perm (r : CacheRow) (l : List CacheRow) :
    (insertCacheDesc r l).Perm (r :: l) := by
  induction l with
  | nil => exact List.Perm.refl _
  | cons x xs ih =>
    unfold insertCacheDesc
    by_cases h : cacheKey x ≤ cacheKey r
    · rw [if_pos h]
    · rw [if_neg h]
      exact (List.Perm.cons x ih).trans (List.Perm.swap r x xs)

theorem sortCacheDesc_perm (l : List CacheRow) : (sortCacheDesc l).Perm l := by
  induction l with
  | nil => exact List.Perm.refl _
  | cons x xs ih =>
    exact (insertCacheDesc_perm x (sortCacheDesc xs)).trans (List.Perm.cons x ih)

theorem insertCacheDesc_sorted (r : CacheRow) (l : List CacheRow)
    (h : l.Pairwise (fun a b => cacheKey b ≤ cacheKey a)) :
    (insertCacheDesc r l).Pairwise (fun a b => cacheKey b ≤ cacheKey a) := by
  induction l with
  | nil => simp [insertCacheDesc]
  | cons x xs ih =>
    rw [List.pairwise_cons] at h
    unfold insertCacheDesc
    by_cases hx : cacheKey x ≤ cacheKey r
    · rw [if_pos hx]
      refine List.pairwise_cons.mpr ⟨?_, List.pairwise_cons.mpr h⟩
      intro y hy
      rcases List.mem_cons.mp hy with rfl | hy'
      · exact hx
      · exact (h.1 y hy').trans hx
    · rw [if_neg hx]
      refine List.pairwise_cons.mpr ⟨?_, ih h.2⟩
      intro y hy
      have hy' := (insertCacheDesc_perm r xs).mem_iff.mp hy
      rcases List.mem_cons.mp hy' with rfl | hy''
      · omega
      · exact h.1 y hy''

theorem sortCacheDesc_sorted (l : List CacheRow) :
    (sortCacheDesc l).Pairwise (fun a b => cacheKey b ≤ cacheKey a) := by
  induction l with
  | nil => exact List.Pairwise.nil
  | cons x xs ih => exact insertCacheDesc_sorted x (sortCacheDesc xs) ih

theorem two_filters_perm (l : List CacheRow) (U : Nat)
    (hdist : ∀ r ∈ l, ¬(r.sender_id = U ∧ r.receiver_id = U)) :
    (l.filter (fun r => r.receiver_id == U) ++
        l.filter (fun r => r.sender_id == U)).Perm
      (l.filter (fun r => r.sender_id == U || r.receiver_id == U)) := by
  induction l with
  | nil => exact List.Perm.refl _
  | cons x xs ih =>
    have hx := hdist x (List.mem_cons_self x xs)
    have hxs : ∀ y ∈ xs, ¬(y.sender_id = U ∧ y.receiver_id = U) :=
      fun y hy => hdist y (List.mem_cons_of_mem x hy)
    by_cases h1 : x.sender_id = U
    · have h2 : ¬x.receiver_id = U := fun h2 => hx ⟨h1, h2⟩
      rw [List.filter_cons_of_neg (by simp [h2]),
        List.filter_cons_of_pos (by simp [h1]),
        List.filter_cons_of_pos (by simp [h1])]
      exact List.perm_middle.trans (List.Perm.cons x (ih hxs))
    · by_cases h2 : x.receiver_id = U
      · have e1 : List.filter (fun r => r.receiver_id == U) (x :: xs)
            = x :: List.filter (fun r => r.receiver_id == U) xs :=
          List.filter_cons_of_pos (by simp [h2])
        have e2 : List.filter (fun r => r.sender_id == U) (x :: xs)
            = List.filter (fun r => r.sender_id == U) xs :=
          List.filter_cons_of_neg (by simp [h1])
        have e3 : List.filter
              (fun r => r.sender_id == U || r.receiver_id == U) (x :: xs)
            = x :: List.filter
                (fun r => r.sender_id == U || r.receiver_id == U) xs :=
          List.filter_cons_of_pos (by simp [h2])
        rw [e1, e2, e3, List.cons_append]
        exact List.Perm.cons x (ih hxs)
      · rw [List.filter_cons_of_neg (by simp [h2]),
          List.filter_cons_of_neg (by simp [h1]),
          List.filter_cons_of_neg (by simp [h1, h2])]
        exact ih hxs

/-! ### Concrete stores used as evidence -/

/-- The store produced by `create_or_get(7, 9)` on an empty keyspace: one
conversation, no messages yet. -/
def freshConvStore : Store := (create_or_get_conversation emptyStore 7 9).2

/-- A store with two conversations involving user 1: conversation 1 between
users 1 and 2 with one message sent at time 1, and conversation 2 between
users 1 and 3 created at time 2 with no messages. -/
def mixedStore : Store :=
  (create_or_get_conversation
    ((create_message ((create_or_get_conversation emptyStore 1 2).2)
      1 1 2 "hi").2) 1 3).2

/-- Store holding one message in conversation 1 (message_id 1). -/
def msgStoreA : Store := (create_message emptyStore 1 10 11 "a").2

/-- `msgStoreA` plus one message in conversation 2, which gets message_id 2. -/
def msgStoreB : Store := (create_message msgStoreA 2 10 12 "b").2

/-- Store with conversations 1 (users 1,2) and 2 (users 3,4), both created
through `create_or_get_conversation`. -/
def convStore2 : Store :=
  (create_or_get_conversation
    ((create_or_get_conversation emptyStore 1 2).2) 3 4).2

/-! ### Claim C2 (id allocation) -/

/-- Claim C2 is violated by the code: the allocators read only the first
stored row (`SELECT ... LIMIT 1`).  On the sequentially built store
`msgStoreB` (one message per conversation 1 and 2, ids 1 and 2) the first row
in storage order is conversation 1's message with id 1, so
`get_new_message_id` returns 2 although message_id 2 is in use, and a third
`create_message` call is issued the duplicate id 2.  Likewise with
conversations 1 and 2 present, `get_new_conversation_id` returns 2, which is
in use. -/
theorem C2_id_allocators_reuse_live_ids :
    ((create_message msgStoreA 2 10 12 "b").1.message_id = 2 ∧
      get_new_message_id msgStoreB = 2 ∧
      (∃ r ∈ msgStoreB.messages, r.message_id = 2) ∧
      (create_message msgStoreB 2 10 12 "c").1.message_id = 2) ∧
    (get_new_conversation_id convStore2 = 2 ∧
      ∃ r ∈ convStore2.conversations, r.conversation_id = 2) := by
  refine ⟨⟨rfl, rfl, ?_, rfl⟩, rfl, ?_⟩
  · decide
  · decide

/-! ### Claim C7 (user conversation listing) -/

/-- Counterexample to claim C7 as stated: in `mixedStore`, user 1's listing
returns conversation 2 — which has no messages — first, not last: the code
stamps the creation time into `last_timestamp` and sorts by it, so a
message-less conversation sorts by creation time instead of sorting last. -/
theorem C7_counterexample_empty_conversation_not_last :
    get_user_conversations mixedStore 1 1 20 =
      ([⟨2, 1, 3, some 2, none⟩, ⟨1, 1, 2, some 1, some "hi"⟩], 2) ∧
    conversationRows mixedStore 2 = [] ∧
    mixedStore.conversations = [⟨1, 1, 2, 0⟩, ⟨2, 1, 3, 2⟩] :=
  ⟨rfl, rfl, rfl⟩

/-- Amended claim C7: for a user that is not both sender and receiver of any
cached conversation, `get_user_conversations(U)` returns (a page of) the cache
rows having U as sender or receiver — each such row exactly once, by the
permutation with the duplicate-free filter — sorted by `last_timestamp`
descending, where a conversation with no messages carries its creation time
as `last_timestamp`; `total_count` is the number of those rows. -/
theorem C7_amended_user_conversations (s : Store) (U page limit : Nat)
    (hdist : ∀ r ∈ s.cache, ¬(r.sender_id = U ∧ r.receiver_id = U)) :
    (get_user_conversations s U page limit).2
        = (s.cache.filter
            (fun r => r.sender_id == U || r.receiver_id == U)).length ∧
    (get_user_conversations s U page limit).1
        = (((sortCacheDesc (userCacheRows s U)).drop
            ((page - 1) * limit)).take limit).map toUserConvOut ∧
    (sortCacheDesc (userCacheRows s U)).Pairwise
      (fun a b => cacheKey b ≤ cacheKey a) ∧
    (sortCacheDesc (userCacheRows s U)).Perm
      (s.cache.filter (fun r => r.sender_id == U || r.receiver_id == U)) := by
  have hperm : (sortCacheDesc (userCacheRows s U)).Perm
      (s.cache.filter (fun r => r.sender_id == U || r.receiver_id == U)) :=
    (sortCacheDesc_perm _).trans (two_filters_perm s.cache U hdist)
  exact ⟨hperm.length_eq, rfl, sortCacheDesc_sorted _, hperm⟩

/-! ### Claim C8 (last-message cache rows) -/

/-- Counterexample to claim C8 as stated: the cache row inserted by
`create_or_get_conversation` for a brand-new conversation has
`last_timestamp = some created_at`, not null — the code writes the creation
time, only `last_message` is null. -/
theorem C8_counterexample_created_row_has_timestamp :
    (create_or_get_conversation emptyStore 7 9).1
        = some ⟨1, 7, 9, some 0, none⟩ ∧
    freshConvStore.cache = [⟨1, 7, 9, some 0, none⟩] ∧
    freshConvStore.messages = [] ∧
    ∀ r ∈ freshConvStore.cache, r.last_timestamp ≠ none := by
  refine ⟨rfl, rfl, rfl, ?_⟩
  decide

/-- Amended claim C8: the cache row created by `create_or_get_conversation`
for a pair with no existing conversation has `last_message` null but
`last_timestamp` equal to the creation time (not null); and immediately after
each `create_message` the conversation's cache row holds exactly that
message's sender, receiver, timestamp and content. -/
theorem C8_amended_cache_row_states (s : Store) (u1 u2 cid sd rc : Nat)
    (c : String)
    (h1 : s.cache.filter
      (fun r => r.sender_id == u1 && r.receiver_id == u2) = [])
    (h2 : s.cache.filter
      (fun r => r.sender_id == u2 && r.receiver_id == u1) = []) :
    get_conversation (create_or_get_conversation s u1 u2).2
        (get_new_conversation_id s)
      = some ⟨get_new_conversation_id s, u1, u2, some s.clock, none⟩ ∧
    get_conversation (create_message s cid sd rc c).2 cid
      = some ⟨cid, sd, rc, some s.clock, some c⟩ := by
  constructor
  · rw [create_or_get_new s u1 u2 h1 h2]
    exact get_conversation_of_upsert _
      ⟨get_new_conversation_id s, u1, u2, some s.clock, none⟩ s.cache rfl
  · exact get_conversation_after_create_message s cid sd rc c


/-! ### Witnesses -/

theorem C1_witness :
    (∃ r1 r2,
      (create_or_get_conversation freshConvStore 7 9).1 = some r1 ∧
      (create_or_get_conversation
        (create_or_get_conversation freshConvStore 7 9).2 9 7).1 = some r2 ∧
      r2.conversation_id = r1.conversation_id) ∧
    (create_or_get_conversation
        (create_or_get_conversation freshConvStore 7 9).2 9 7).2 =
      (create_or_get_conversation freshConvStore 7 9).2 :=
  C1_create_or_get_is_idempotent_on_pairs freshConvStore (by decide) 7 9 9 7
    (Or.inr ⟨rfl, rfl⟩)

theorem C3_witness :
    ((get_conversation_messages store25 1 2 20).2
        = (conversationRows store25 1).length ∧
      (get_conversation_messages store25 1 2 20).1
        = (((conversationRows store25 1).map (toMessageOut 1)).drop
            ((2 - 1) * 20)).take 20 ∧
      ((conversationRows store25 1).map (toMessageOut 1)).Pairwise
        (fun a b => b.created_at < a.created_at)) ∧
    get_conversation_messages store25 1 2 20 =
      ([⟨5, 7, 9, "m4", 5, 1⟩, ⟨4, 7, 9, "m3", 4, 1⟩, ⟨3, 7, 9, "m2", 3, 1⟩,
        ⟨2, 7, 9, "m1", 2, 1⟩, ⟨1, 7, 9, "m0", 1, 1⟩], 25) :=
  C3_get_conversation_messages_pagination store25 (by decide) 1 2 20
    (by decide) (by decide)

theorem C4_witness :
    (beforeRows mixedStore 1 2).map (toMessageOut 1)
      = ((conversationRows mixedStore 1).map (toMessageOut 1)).filter
          (fun m => m.created_at < 2) ∧
    (get_messages_before_timestamp mixedStore 1 2 1 20).2
      = (beforeRows mixedStore 1 2).length ∧
    (get_messages_before_timestamp mixedStore 1 2 1 20).1
      = (((beforeRows mixedStore 1 2).map (toMessageOut 1)).drop
          ((1 - 1) * 20)).take 20 ∧
    ((beforeRows mixedStore 1 2).map (toMessageOut 1)).Pairwise
      (fun a b => b.created_at < a.created_at) :=
  C4_get_messages_before_timestamp_filters mixedStore (by decide) 1 2 1 20
    (by decide)

theorem C6_witness :
    ((List.range 2).map
        (fun i => (get_conversation_messages store25 1 (i + 1) 20).1)).flatten
      = (conversationRows store25 1).map (toMessageOut 1) ∧
    (get_conversation_messages store25 1 (2 + 1) 20).1 = [] ∧
    ((conversationRows store25 1).map (toMessageOut 1)).Pairwise
      (fun a b => b.created_at < a.created_at) :=
  C6_pages_reproduce_full_list store25 1 20 2 (by decide) (by decide)
    (by decide)

theorem C7_amended_witness :
    (get_user_conversations mixedStore 1 1 20).2
        = (mixedStore.cache.filter
            (fun r => r.sender_id == 1 || r.receiver_id == 1)).length ∧
    (get_user_conversations mixedStore 1 1 20).1
        = (((sortCacheDesc (userCacheRows mixedStore 1)).drop
            ((1 - 1) * 20)).take 20).map toUserConvOut ∧
    (sortCacheDesc (userCacheRows mixedStore 1)).Pairwise
      (fun a b => cacheKey b ≤ cacheKey a) ∧
    (sortCacheDesc (userCacheRows mixedStore 1)).Perm
      (mixedStore.cache.filter
        (fun r => r.sender_id == 1 || r.receiver_id == 1)) :=
  C7_amended_user_conversations mixedStore 1 1 20 (by decide)

theorem C8_amended_witness :
    get_conversation (create_or_get_conversation emptyStore 7 9).2
        (get_new_conversation_id emptyStore)
      = some ⟨get_new_conversation_id emptyStore, 7, 9,
          some emptyStore.clock, none⟩ ∧
    get_conversation (create_message emptyStore 5 1 2 "x").2 5
      = some ⟨5, 1, 2, some emptyStore.clock, some "x"⟩ :=
  C8_amended_cache_row_states emptyStore 7 9 5 1 2 "x" rfl rfl

theorem C9_witness :
    get_conversation emptyStore 5 = none ∧
    get_conversation_messages emptyStore 5 1 20 = ([], 0) ∧
    get_messages_before_timestamp emptyStore 5 3 1 20 = ([], 0) := by
  have h := C9_reads_return_empty_on_absent emptyStore 5 3 1 20
  exact ⟨h.1 rfl, (h.2 rfl).1, (h.2 rfl).2⟩

theorem C10_witness :
    get_conversation_messages store25 1 3 20
      = ([], (conversationRows store25 1).length) ∧
    get_messages_before_timestamp store25 1 6 3 20
      = ([], (beforeRows store25 1 6).length) := by
  have h := C10_out_of_range_pages_are_benign store25 1 6 3 20
  exact ⟨h.1 (by decide), h.2 (by decide)⟩

end Messenger
